import Mathlib

set_option autoImplicit false

/-!
Verification of the MonkeyChat signaling relay (backend/main.go).

The development embeds the WebSocket signaling core: the `rooms` registry
(a map from room id to the ordered list of connections), the per-message
dispatch of the read loop in `handleWebSocket`, and the helper functions
`notifyUserJoined`, `notifyUserLeft`, `cleanupConnection`,
`relayMessageToRoom`, `respondJSON`, and the registry part of
`handleDeleteRoom`.

Modelling choices:
  - A `*websocket.Conn` pointer is abstracted as a `Nat` handle; Go pointer
    equality `c.Conn == conn.Conn` becomes equality of handles.
  - Wire bytes are `String`s.  A well-formed inbound frame is a `Json`
    value `j` whose raw bytes are `Json.render j`; a malformed frame (not
    valid JSON, or JSON that `json.Unmarshal` cannot decode into the Go
    `Message` struct) is the `Inbound.malformed` constructor.
  - Network writes, lock acquisitions/releases and database notifications
    are recorded in an `Action` trace, in program order.
  - The Go `map[string][]*Connection` is an association list with unique
    keys; Go map iteration order in `cleanupConnection` is modelled by the
    list order (any fixed order; the theorems that depend on iteration
    order are robust to the choice, see the comments there).
-/

/-- JSON values, the shape of decoded wire payloads. -/
inductive Json where
  | null : Json
  | bool (b : Bool) : Json
  | num (n : Int) : Json
  | str (s : String) : Json
  | arr (elems : List Json) : Json
  | obj (fields : List (String × Json)) : Json

/-- Minimal JSON string escaping (quotes and backslashes). -/
def jsonEscape (s : String) : String :=
  String.mk (s.data.foldr (fun c acc =>
    if c = '\"' then '\\' :: '\"' :: acc
    else if c = '\\' then '\\' :: '\\' :: acc
    else c :: acc) [])

mutual
/-- Serialize a JSON value to its byte form (the wire representation). -/
def Json.render : Json → String
  | .null => "null"
  | .bool b => if b then "true" else "false"
  | .num n => toString n
  | .str s => "\"" ++ jsonEscape s ++ "\""
  | .arr elems => "[" ++ renderElems elems ++ "]"
  | .obj fields => "\x7b" ++ renderFields fields ++ "\x7d"

def renderElems : List Json → String
  | [] => ""
  | [x] => Json.render x
  | x :: rest => Json.render x ++ "," ++ renderElems rest

def renderFields : List (String × Json) → String
  | [] => ""
  | [(k, v)] => "\"" ++ jsonEscape k ++ "\":" ++ Json.render v
  | (k, v) :: rest =>
      "\"" ++ jsonEscape k ++ "\":" ++ Json.render v ++ "," ++ renderFields rest
end

/-- `Connection` struct from main.go: a WebSocket connection with user info.
The `*websocket.Conn` pointer is abstracted as a `Nat` handle; pointer
equality of `Conn` fields is equality of handles. -/
structure Connection where
  handle : Nat
  userName : String
  userID : Int
deriving DecidableEq, Repr

/-- `Message` struct from main.go: the wire envelope.  `Payload` is a Go
`json.RawMessage` (the raw bytes of a JSON subvalue, or nil when absent);
since the enclosing document was valid JSON, a present payload is a valid
JSON value, modelled as `Option Json`. -/
structure Message where
  event : String
  roomID : String
  payload : Option Json

/-- `UserInfo` struct from main.go: user information from join payload. -/
structure UserInfo where
  userName : String
deriving DecidableEq, Repr

/-- The raw subvalue of a `json.RawMessage` struct field: `RawMessage`'s
`UnmarshalJSON` overwrites the bytes on every binding of the key, a JSON
null included, so the last binding wins; `none` when the key is absent. -/
def lookupField (fields : List (String × Json)) (key : String) : Option Json :=
  (fields.filter (fun p => p.1 == key)).getLast?.map (·.2)

/-- A JSON value that records an unmarshal error for a Go `string` struct
field: a string is stored, a JSON null is ignored (Go's `json.Unmarshal`
leaves the field unchanged and reports no error for null), anything else
errors. -/
def badStringFieldValue : Json → Bool
  | .null => false
  | .str _ => false
  | _ => true

/-- The value Go's `json.Unmarshal` leaves in a `string` struct field for
the given key: bindings are applied in order, a string overwrites, a null
is ignored (the field keeps its previous value), so the last non-null
string binding wins; no binding leaves the zero value `""`. -/
def stringFieldValue (fields : List (String × Json)) (key : String) : String :=
  ((fields.filter (fun p => p.1 == key)).map (fun p => p.2)).foldl
    (fun acc v => match v with | .str s => s | _ => acc) ""

/-- Whether some binding of the key records an unmarshal error for a
`string` struct field (a non-null, non-string value); Go saves the error
and `json.Unmarshal` returns it even if later bindings are fine. -/
def stringFieldErrors (fields : List (String × Json)) (key : String) : Bool :=
  ((fields.filter (fun p => p.1 == key)).map (fun p => p.2)).any badStringFieldValue

/-- Bytes of a `json.RawMessage` payload: empty when the field was absent. -/
def payloadBytes : Option Json → String
  | none => ""
  | some j => j.render

/-- `json.Unmarshal(data, &userInfo)` for the `UserInfo` struct.  `none` is
an unmarshal error: a nil/absent buffer ("unexpected end of JSON input"),
or a JSON value that is neither an object nor null, or a `userName`
binding that is neither a string nor null (a null binding is ignored with
no error).  Absent `userName` leaves the zero value `""`. -/
def unmarshalUserInfo : Option Json → Option UserInfo
  | none => none
  | some .null => some ⟨""⟩
  | some (.obj fields) =>
      if stringFieldErrors fields "userName" then none
      else some ⟨stringFieldValue fields "userName"⟩
  | some _ => none

/-- `json.Unmarshal(message, &msg)` for the `Message` struct, on a frame
that is valid JSON: the top level must be an object (or null, which leaves
the zero value); `event` and `roomId` bindings must be strings or null
(null is ignored), absent fields keep the zero value `""`; `payload`
captures the raw subvalue, last binding winning. -/
def decodeMessage : Json → Option Message
  | .null => some ⟨"", "", none⟩
  | .obj fields =>
      if stringFieldErrors fields "event" || stringFieldErrors fields "roomId" then none
      else some ⟨stringFieldValue fields "event", stringFieldValue fields "roomId",
        lookupField fields "payload"⟩
  | _ => none

/-- Go `json.Marshal` of the `Message` struct: fields in declaration order,
`payload` carrying the `omitempty` tag (dropped when nil). -/
def encodeMessage (m : Message) : Json :=
  .obj ([("event", .str m.event), ("roomId", .str m.roomID)] ++
    (match m.payload with
     | none => []
     | some p => [("payload", p)]))

/-- `json.Marshal(map[string]string{"userName": name})`, the payload of the
server-authored `user-joined` / `user-left` presence events. -/
def userNamePayload (name : String) : Json :=
  .obj [("userName", .str name)]

/-- The global `rooms = make(map[string][]*Connection)` registry. -/
abbrev Registry := List (String × List Connection)

/-- `rooms[roomID]` two-result map read. -/
def Registry.lookup (reg : Registry) (roomID : String) : Option (List Connection) :=
  (List.find? (fun p => p.1 == roomID) reg).map (·.2)

/-- `rooms[roomID] = conns` on a key already present: replace the binding. -/
def Registry.setRoom (reg : Registry) (roomID : String) (conns : List Connection) : Registry :=
  reg.map (fun p => if p.1 == roomID then (roomID, conns) else p)

/-- `delete(rooms, roomID)`. -/
def Registry.eraseRoom (reg : Registry) (roomID : String) : Registry :=
  reg.filter (fun p => p.1 != roomID)

/-- The room ids present in the registry, in insertion order. -/
def roomKeys (reg : Registry) : List String := reg.map (·.1)

/-- Observable effects of the handlers, in program order: network writes
(`send handle bytes`), registry-lock operations, and the durable-store
notification `addActiveRoom`. -/
inductive Act where
  | lockW : Act
  | unlockW : Act
  | lockR : Act
  | unlockR : Act
  | send (toHandle : Nat) (bytes : String) : Act
  | dbAddActiveRoom (roomID userName : String) (userID : Int) : Act
deriving DecidableEq, Repr

/-- The network writes of a trace, in order. -/
def sendsOf : List Act → List (Nat × String)
  | [] => []
  | .send h b :: rest => (h, b) :: sendsOf rest
  | _ :: rest => sendsOf rest

/-- `respondJSON(conn, v)`: marshal and write to the connection. -/
def respondJSON (conn : Connection) (m : Message) : Act :=
  .send conn.handle (encodeMessage m).render

/-- Inner loop of `cleanupConnection` for one room: remove the first entry
whose channel handle matches (`c.Conn == conn.Conn`), or report no match. -/
def removeFirstConn : List Connection → Nat → Option (List Connection)
  | [], _ => none
  | c :: rest, h =>
      if c.handle = h then some rest
      else (removeFirstConn rest h).map (fun l => c :: l)

/-- `cleanupConnection(conn)` from main.go: under the write lock, iterate
over the rooms; in the first room containing an entry with a matching
channel handle, remove that entry and RETURN from the whole function (the
Go body executes `return` right after the splice).  The room entry itself
is kept even when it becomes empty. -/
def cleanupConnection (reg : Registry) (conn : Connection) : Registry :=
  match reg with
  | [] => []
  | (roomID, connections) :: rest =>
      match removeFirstConn connections conn.handle with
      | some connections2 => (roomID, connections2) :: rest
      | none => (roomID, connections) :: cleanupConnection rest conn

/-- `notifyUserJoined(conn, roomID, userName)` from main.go: marshal a
fresh `user-joined` envelope and write it to `conn`. -/
def notifyUserJoined (conn : Connection) (roomID userName : String) : Act :=
  respondJSON conn ⟨"user-joined", roomID, some (userNamePayload userName)⟩

/-- `notifyUserLeft(leavingConn, roomID, userName)` from main.go: under the
read lock, look the room up (silently return when absent) and write a fresh
`user-left` envelope to every member whose channel handle differs from the
leaving connection's. -/
def notifyUserLeft (leavingConn : Connection) (roomID userName : String)
    (reg : Registry) : List Act :=
  let userLeftMsg : Message := ⟨"user-left", roomID, some (userNamePayload userName)⟩
  match reg.lookup roomID with
  | none => [.lockR, .unlockR]
  | some connections =>
      [Act.lockR] ++
        (connections.filter (fun c => c.handle ≠ leavingConn.handle)).map
          (fun c => respondJSON c userLeftMsg) ++
      [Act.unlockR]

/-- `relayMessageToRoom(sender, roomID, message)` from main.go: under the
read lock, look the room up (log a warning and return when absent) and
write the exact inbound bytes `message` to every member whose channel
handle differs from the sender's. -/
def relayMessageToRoom (sender : Connection) (roomID : String)
    (message : String) (reg : Registry) : List Act :=
  match reg.lookup roomID with
  | none => [.lockR, .unlockR]
  | some connections =>
      [Act.lockR] ++
        (connections.filter (fun c => c.handle ≠ sender.handle)).map
          (fun c => Act.send c.handle message) ++
      [Act.unlockR]

/-- Lines 225–234 of main.go, the display-name resolution at the top of
the `case "join"` branch: only when the connection has no user name AND
the payload buffer is non-empty (`len(msg.Payload) > 0`), derive the name
from the payload's `userName` (falling back to "Anonymous" when the
unmarshal fails or the field is empty/missing); otherwise the connection
is left untouched. -/
def resolveJoinName (conn : Connection) (payload : Option Json) : Connection :=
  if conn.userName = "" ∧ 0 < (payloadBytes payload).length then
    match unmarshalUserInfo payload with
    | some userInfo =>
        if userInfo.userName ≠ "" then { conn with userName := userInfo.userName }
        else { conn with userName := "Anonymous" }
    | none => { conn with userName := "Anonymous" }
  else conn

/-- The `case "join"` branch of the read loop in `handleWebSocket`:
resolve the display name (`resolveJoinName`); then, under the write lock,
create the room when absent (notifying the durable store when the creator
is a named authenticated user), notify each existing member and the
joiner of each other, and append the joiner; after unlocking, send the
`joined` confirmation. -/
def handleJoinEvent (conn : Connection) (msg : Message) (reg : Registry) :
    Connection × Registry × List Act :=
  let conn1 := resolveJoinName conn msg.payload
  let roomID := msg.roomID
  let isNew := (reg.lookup roomID).isNone
  let reg1 := if isNew then reg ++ [(roomID, [])] else reg
  let dbActs :=
    if isNew ∧ conn1.userName ≠ "" ∧ conn1.userName ≠ "Anonymous" ∧ 0 < conn1.userID
    then [Act.dbAddActiveRoom roomID conn1.userName conn1.userID] else []
  let existing := (reg1.lookup roomID).getD []
  let notifyActs := existing.flatMap (fun e =>
    [notifyUserJoined e roomID conn1.userName, notifyUserJoined conn1 roomID e.userName])
  let reg2 := reg1.setRoom roomID (existing ++ [conn1])
  (conn1, reg2,
    [Act.lockW] ++ dbActs ++ notifyActs ++
      [Act.unlockW, respondJSON conn1 ⟨"joined", roomID, none⟩])

/-- The `case "leave"` branch of the read loop in `handleWebSocket`: only
when `json.Unmarshal(msg.Payload, &userInfo)` succeeds, broadcast
`user-left` under the given name (the payload's `userName`, or the
connection's resolved name when empty); in every case then run
`cleanupConnection`. -/
def handleLeaveEvent (conn : Connection) (msg : Message) (reg : Registry) :
    Registry × List Act :=
  let notifyActs :=
    match unmarshalUserInfo msg.payload with
    | some userInfo =>
        let leavingUserName :=
          if userInfo.userName = "" then conn.userName else userInfo.userName
        notifyUserLeft conn msg.roomID leavingUserName reg
    | none => []
  (cleanupConnection reg conn, notifyActs ++ [Act.lockW, Act.unlockW])

/-- One inbound frame of the read loop: either not valid JSON (or JSON the
`Message`-struct unmarshal rejects), or a decoded JSON value whose raw
bytes are its rendering. -/
inductive Inbound where
  | malformed : Inbound
  | frame (j : Json) : Inbound

/-- One iteration of the read loop of `handleWebSocket` on an inbound
frame: unmarshal errors are logged and skipped (`continue`); decoded
messages dispatch on the event tag; tags other than
join/leave/offer/answer/ice-candidate fall through the `switch` with no
effect.  The final `Bool` records whether the loop continues (the `break`
in the `leave` case only exits the `switch`, so it does). -/
def handleMessage (conn : Connection) (reg : Registry) (inb : Inbound) :
    Connection × Registry × List Act × Bool :=
  match inb with
  | .malformed => (conn, reg, [], true)
  | .frame j =>
      match decodeMessage j with
      | none => (conn, reg, [], true)
      | some msg =>
          if msg.event = "join" then
            let r := handleJoinEvent conn msg reg
            (r.1, r.2.1, r.2.2, true)
          else if msg.event = "leave" then
            let r := handleLeaveEvent conn msg reg
            (conn, r.1, r.2, true)
          else if msg.event = "offer" ∨ msg.event = "answer" ∨ msg.event = "ice-candidate" then
            (conn, reg, relayMessageToRoom conn msg.roomID j.render reg, true)
          else
            (conn, reg, [], true)

/-- The read-error path of the read loop: `cleanupConnection` then `break`
(the loop ends, no broadcast). -/
def handleReadError (conn : Connection) (reg : Registry) :
    Registry × List Act × Bool :=
  (cleanupConnection reg conn, [Act.lockW, Act.unlockW], false)

/-- `Room` row from database.go (`DbRoom`): id and creator. -/
structure DbRoom where
  id : String
  createdBy : Int
deriving DecidableEq, Repr

/-- `handleDeleteRoom` from main.go, its effect on the in-memory registry.
Database results are passed in: `requestRoomID` is the parse of the POST
body (`none` = invalid JSON), `dbFetchErr`/`dbRoom` the `GetRoomByID`
outcome, `dbDeleteErr` the `DeleteRoom` outcome.  Returns the new registry
and the HTTP status.  Only the fully authorized path (room found in the
durable store, requester is its creator, durable delete succeeded) reaches
`delete(rooms, roomID)`. -/
def handleDeleteRoom (reg : Registry) (requestRoomID : Option String)
    (dbFetchErr : Bool) (dbRoom : Option DbRoom) (dbDeleteErr : Bool)
    (userID : Int) : Registry × Nat :=
  match requestRoomID with
  | none => (reg, 400)
  | some roomID =>
      if roomID = "" then (reg, 400)
      else if dbFetchErr then (reg, 500)
      else
        match dbRoom with
        | none => (reg, 404)
        | some room =>
            if room.createdBy ≠ userID then (reg, 403)
            else if dbDeleteErr then (reg, 500)
            else (reg.eraseRoom roomID, 200)

/-- Whether a handle occurs in some room's member list. -/
def inAnyRoom (reg : Registry) (h : Nat) : Bool :=
  reg.any (fun p => p.2.any (fun c => c.handle == h))

/-- Total number of member entries with the given handle, over all rooms. -/
def occCount (reg : Registry) (h : Nat) : Nat :=
  (reg.map (fun p => (p.2.filter (fun c => c.handle == h)).length)).sum

/-- The byte sequences written to the given handle by a trace, in order:
what that connection receives. -/
def recvSeq (acts : List Act) (h : Nat) : List String :=
  (sendsOf acts).filterMap (fun p => if p.1 = h then some p.2 else none)

/-- Rendered bytes of the server-authored `user-joined` envelope. -/
def userJoinedBytes (roomID userName : String) : String :=
  (encodeMessage ⟨"user-joined", roomID, some (userNamePayload userName)⟩).render

/-- Rendered bytes of the server-authored `user-left` envelope. -/
def userLeftBytes (roomID userName : String) : String :=
  (encodeMessage ⟨"user-left", roomID, some (userNamePayload userName)⟩).render

/-- Rendered bytes of the server-authored `joined` confirmation. -/
def joinedConfirmationBytes (roomID : String) : String :=
  (encodeMessage ⟨"joined", roomID, none⟩).render

/-- Network writes performed while the write-lock depth is positive. -/
def wlockSendsAux : Nat → List Act → List (Nat × String)
  | _, [] => []
  | d, Act.lockW :: rest => wlockSendsAux (d + 1) rest
  | d, Act.unlockW :: rest => wlockSendsAux (d - 1) rest
  | d, Act.send h b :: rest => (if 0 < d then [(h, b)] else []) ++ wlockSendsAux d rest
  | d, _ :: rest => wlockSendsAux d rest

/-- The network writes a trace performs while holding the exclusive
(write) lock of the registry. -/
def sendsUnderWriteLock (acts : List Act) : List (Nat × String) :=
  wlockSendsAux 0 acts

theorem sendsOf_append (a b : List Act) :
    sendsOf (a ++ b) = sendsOf a ++ sendsOf b := by
  induction a with
  | nil => rfl
  | cons x rest ih => cases x <;> simp [sendsOf, ih]

theorem sendsOf_map_send {α : Type} (l : List α) (f : α → Nat) (g : α → String) :
    sendsOf (l.map (fun c => Act.send (f c) (g c))) = l.map (fun c => (f c, g c)) := by
  induction l with
  | nil => rfl
  | cons x rest ih => simp [sendsOf, ih]

theorem toDigitsCore_length_ge (b : Nat) : ∀ (fuel n : Nat) (ds : List Char),
    ds.length ≤ (Nat.toDigitsCore b fuel n ds).length := by
  intro fuel
  induction fuel with
  | zero => intro n ds; simp [Nat.toDigitsCore]
  | succ f ih =>
      intro n ds
      simp only [Nat.toDigitsCore]
      by_cases h : n / b = 0
      · simp [h]
      · simp only [h, if_false]
        calc ds.length ≤ (Nat.digitChar (n % b) :: ds).length := by simp
          _ ≤ _ := ih _ _

theorem nat_repr_length_pos (n : Nat) : 0 < (Nat.repr n).length := by
  show 0 < (List.asString (Nat.toDigits 10 n)).length
  have hlen : 0 < (Nat.toDigits 10 n).length := by
    unfold Nat.toDigits
    simp only [Nat.toDigitsCore]
    by_cases h : n / 10 = 0
    · simp [h]
    · simp only [h, if_false]
      have := toDigitsCore_length_ge 10 n (n / 10) [Nat.digitChar (n % 10)]
      simpa using lt_of_lt_of_le (by simp) this
  simpa [List.asString, String.length] using hlen

theorem int_toString_length_pos (n : Int) : 0 < (toString n).length := by
  show 0 < (Int.repr n).length
  cases n with
  | ofNat m => exact nat_repr_length_pos m
  | negSucc m =>
      show 0 < ("-" ++ Nat.repr (m + 1)).length
      rw [String.length_append]
      have := nat_repr_length_pos (m + 1)
      omega

/-- A rendered JSON value is never the empty byte string, so a present
payload always satisfies the Go guard `len(msg.Payload) > 0`. -/
theorem render_length_pos (j : Json) : 0 < (Json.render j).length := by
  cases j with
  | null => decide
  | bool b => cases b <;> decide
  | num n => simpa [Json.render] using int_toString_length_pos n
  | str s =>
      simp only [Json.render, String.length_append]
      have : 0 < ("\"" : String).length := by decide
      omega
  | arr elems =>
      simp only [Json.render, String.length_append]
      have : 0 < ("[" : String).length := by decide
      omega
  | obj fields =>
      simp only [Json.render, String.length_append]
      have : 0 < ("\x7b" : String).length := by decide
      omega

theorem sendsOf_sends (l : List Connection) (m : String) :
    sendsOf (l.map (fun c => Act.send c.handle m)) = l.map (fun c => (c.handle, m)) := by
  induction l with
  | nil => rfl
  | cons x rest ih => simp [sendsOf, ih]

theorem sendsOf_respond (l : List Connection) (msg : Message) :
    sendsOf (l.map (fun c => respondJSON c msg)) =
      l.map (fun c => (c.handle, (encodeMessage msg).render)) := by
  induction l with
  | nil => rfl
  | cons x rest ih =>
      simp only [respondJSON] at ih ⊢
      simp [sendsOf, ih]

/-- C1.  Relay fidelity and sender exclusion: an inbound frame decoding to
event `offer`, `answer` or `ice-candidate` with room id `R` is written,
byte-identically (the raw bytes `j.render`, never a re-serialization), to
exactly the members of `R` whose channel handle differs from the sender's,
in member-list order, and no write of this relay targets the sender's
handle. -/
theorem relay_fidelity (conn : Connection) (reg : Registry) (j : Json)
    (msg : Message) (members : List Connection)
    (hdec : decodeMessage j = some msg)
    (hev : msg.event = "offer" ∨ msg.event = "answer" ∨ msg.event = "ice-candidate")
    (hroom : reg.lookup msg.roomID = some members) :
    sendsOf (handleMessage conn reg (.frame j)).2.2.1 =
      (members.filter (fun c => c.handle ≠ conn.handle)).map (fun c => (c.handle, j.render))
    ∧ ∀ p ∈ sendsOf (handleMessage conn reg (.frame j)).2.2.1, p.1 ≠ conn.handle := by
  have hj : ¬ (msg.event = "join") := by rcases hev with h|h|h <;> rw [h] <;> decide
  have hl : ¬ (msg.event = "leave") := by rcases hev with h|h|h <;> rw [h] <;> decide
  have hmain : (handleMessage conn reg (.frame j)).2.2.1 =
      relayMessageToRoom conn msg.roomID j.render reg := by
    simp only [handleMessage, hdec, if_neg hj, if_neg hl, if_pos hev]
  rw [hmain]
  have hrel : relayMessageToRoom conn msg.roomID j.render reg =
      [Act.lockR] ++ (members.filter (fun c => c.handle ≠ conn.handle)).map
        (fun c => Act.send c.handle j.render) ++ [Act.unlockR] := by
    simp only [relayMessageToRoom, hroom]
  rw [hrel]
  rw [sendsOf_append, sendsOf_append, sendsOf_sends]
  constructor
  · simp [sendsOf]
  · intro p hp
    simp only [sendsOf, List.append_nil, List.nil_append] at hp
    rcases List.mem_map.mp hp with ⟨c, hc, hpc⟩
    rcases List.mem_filter.mp hc with ⟨-, hne⟩
    subst hpc
    simpa using of_decide_eq_true hne

/-- An `offer` frame used to instantiate the relay theorems. -/
def offerFrame : Json :=
  .obj [("event", .str "offer"), ("roomId", .str "r1"),
    ("payload", .obj [("sdp", .str "X"), ("userName", .str "alice")])]

/-- C1 witness: in room `r1` = [alice(handle 1), bob(handle 2)], an `offer`
from alice is written exactly to bob, with the inbound bytes. -/
theorem relay_fidelity_witness :
    sendsOf (handleMessage ⟨1, "alice", 0⟩ [("r1", [⟨1, "alice", 0⟩, ⟨2, "bob", 0⟩])]
        (.frame offerFrame)).2.2.1 =
      (([⟨1, "alice", 0⟩, ⟨2, "bob", 0⟩] : List Connection).filter
        (fun c => c.handle ≠ (⟨1, "alice", 0⟩ : Connection).handle)).map
        (fun c => (c.handle, offerFrame.render))
    ∧ ∀ p ∈ sendsOf (handleMessage ⟨1, "alice", 0⟩
        [("r1", [⟨1, "alice", 0⟩, ⟨2, "bob", 0⟩])] (.frame offerFrame)).2.2.1,
        p.1 ≠ (⟨1, "alice", 0⟩ : Connection).handle :=
  relay_fidelity ⟨1, "alice", 0⟩ [("r1", [⟨1, "alice", 0⟩, ⟨2, "bob", 0⟩])] offerFrame
    ⟨"offer", "r1", some (.obj [("sdp", .str "X"), ("userName", .str "alice")])⟩
    [⟨1, "alice", 0⟩, ⟨2, "bob", 0⟩] rfl (Or.inl rfl) rfl

/-- C10.  The relay never checks the sender's membership: for ANY sender
connection (member of the room or not, of any room or none — no hypothesis
relates `sender` to `reg`), when the room is present every member with a
different channel handle is written the message; when the room is absent
the relay returns (after a logged warning) having written to no one. -/
theorem relay_no_membership_check (sender : Connection) (reg : Registry)
    (roomID : String) (message : String) :
    (∀ members, reg.lookup roomID = some members →
      sendsOf (relayMessageToRoom sender roomID message reg) =
        (members.filter (fun c => c.handle ≠ sender.handle)).map (fun c => (c.handle, message)))
    ∧ (reg.lookup roomID = none →
      sendsOf (relayMessageToRoom sender roomID message reg) = []) := by
  constructor
  · intro members hroom
    simp only [relayMessageToRoom, hroom]
    rw [sendsOf_append, sendsOf_append, sendsOf_sends]
    simp [sendsOf]
  · intro hnone
    simp [relayMessageToRoom, hnone, sendsOf]

/-- C10 witness: eve (handle 9) never joined anything, yet her relay into
`r1` reaches alice; her relay into an absent room reaches no one. -/
theorem relay_no_membership_check_witness :
    sendsOf (relayMessageToRoom ⟨9, "eve", 0⟩ "r1" "RAW" [("r1", [⟨1, "alice", 0⟩])]) =
      (([⟨1, "alice", 0⟩] : List Connection).filter
        (fun c => c.handle ≠ (⟨9, "eve", 0⟩ : Connection).handle)).map (fun c => (c.handle, "RAW"))
    ∧ sendsOf (relayMessageToRoom ⟨9, "eve", 0⟩ "missing" "RAW" [("r1", [⟨1, "alice", 0⟩])]) = [] :=
  ⟨(relay_no_membership_check ⟨9, "eve", 0⟩ [("r1", [⟨1, "alice", 0⟩])] "r1" "RAW").1
      [⟨1, "alice", 0⟩] rfl,
    (relay_no_membership_check ⟨9, "eve", 0⟩ [("r1", [⟨1, "alice", 0⟩])] "missing" "RAW").2 rfl⟩

/-- C8.  Fault containment for bad input: a malformed frame (invalid
top-level JSON, or JSON the `Message`-struct unmarshal rejects) and a
decoded message whose event tag is none of join/leave/offer/answer/
ice-candidate all leave the connection and registry unchanged, perform no
send (no reply, no error event), and the read loop continues (final
component `true`). -/
theorem bad_input_contained (conn : Connection) (reg : Registry) (j : Json) :
    handleMessage conn reg .malformed = (conn, reg, [], true)
    ∧ (decodeMessage j = none → handleMessage conn reg (.frame j) = (conn, reg, [], true))
    ∧ (∀ msg, decodeMessage j = some msg →
        msg.event ∉ (["join", "leave", "offer", "answer", "ice-candidate"] : List String) →
        handleMessage conn reg (.frame j) = (conn, reg, [], true)) := by
  refine ⟨rfl, ?_, ?_⟩
  · intro h; simp [handleMessage, h]
  · intro msg hdec hne
    simp only [List.mem_cons, List.not_mem_nil, or_false] at hne
    push_neg at hne
    obtain ⟨h1, h2, h3, h4, h5⟩ := hne
    simp [handleMessage, hdec, h1, h2, h3, h4, h5]

/-- C8 witness: a malformed frame, a JSON array (unmarshal error), and an
unknown `chat` tag are all dropped without effect. -/
theorem bad_input_contained_witness :
    handleMessage ⟨1, "alice", 0⟩ [("r1", [⟨2, "bob", 0⟩])] .malformed
      = (⟨1, "alice", 0⟩, [("r1", [⟨2, "bob", 0⟩])], [], true)
    ∧ handleMessage ⟨1, "alice", 0⟩ [("r1", [⟨2, "bob", 0⟩])] (.frame (.arr []))
      = (⟨1, "alice", 0⟩, [("r1", [⟨2, "bob", 0⟩])], [], true)
    ∧ handleMessage ⟨1, "alice", 0⟩ [("r1", [⟨2, "bob", 0⟩])]
        (.frame (.obj [("event", .str "chat"), ("roomId", .str "r1")]))
      = (⟨1, "alice", 0⟩, [("r1", [⟨2, "bob", 0⟩])], [], true) :=
  ⟨(bad_input_contained ⟨1, "alice", 0⟩ [("r1", [⟨2, "bob", 0⟩])] (.arr [])).1,
   (bad_input_contained ⟨1, "alice", 0⟩ [("r1", [⟨2, "bob", 0⟩])] (.arr [])).2.1 rfl,
   (bad_input_contained ⟨1, "alice", 0⟩ [("r1", [⟨2, "bob", 0⟩])]
       (.obj [("event", .str "chat"), ("roomId", .str "r1")])).2.2
     ⟨"chat", "r1", none⟩ rfl (by decide)⟩

theorem removeFirstConn_none : ∀ {l : List Connection} {h : Nat},
    removeFirstConn l h = none → (l.filter (fun c => c.handle == h)).length = 0 := by
  intro l
  induction l with
  | nil => intro h _; rfl
  | cons c rest ih =>
      intro h hn
      simp only [removeFirstConn] at hn
      by_cases hc : c.handle = h
      · simp [hc] at hn
      · have hcb : (c.handle == h) = false := by simp [hc]
        cases hrest : removeFirstConn rest h with
        | some m => simp [hc, hrest] at hn
        | none => simp [List.filter_cons, hcb, ih hrest]

theorem removeFirstConn_some : ∀ {l l2 : List Connection} {h : Nat},
    removeFirstConn l h = some l2 →
    (l2.filter (fun c => c.handle == h)).length + 1
      = (l.filter (fun c => c.handle == h)).length := by
  intro l
  induction l with
  | nil => intro l2 h hn; simp [removeFirstConn] at hn
  | cons c rest ih =>
      intro l2 h hn
      simp only [removeFirstConn] at hn
      by_cases hc : c.handle = h
      · have hcb : (c.handle == h) = true := by simp [hc]
        simp only [hc, if_true] at hn
        have hrl : rest = l2 := Option.some.inj hn
        subst hrl
        simp [List.filter_cons, hcb]
      · have hcb : (c.handle == h) = false := by simp [hc]
        cases hrest : removeFirstConn rest h with
        | none => simp [hc, hrest] at hn
        | some m =>
            simp only [hc, if_false, hrest, Option.map_some] at hn
            have hml : c :: m = l2 := Option.some.inj hn
            subst hml
            simp [List.filter_cons, hcb, ih hrest]

theorem occCount_cleanup (reg : Registry) (conn : Connection) :
    occCount (cleanupConnection reg conn) conn.handle = occCount reg conn.handle - 1 := by
  induction reg with
  | nil => rfl
  | cons p rest ih =>
      obtain ⟨rid, conns⟩ := p
      simp only [cleanupConnection]
      cases hrf : removeFirstConn conns conn.handle with
      | some conns2 =>
          have hlen := removeFirstConn_some hrf
          simp only [occCount, List.map_cons, List.sum_cons]
          omega
      | none =>
          have hz := removeFirstConn_none hrf
          simp only [occCount, List.map_cons, List.sum_cons] at *
          omega

theorem inAnyRoom_eq_false : ∀ {reg : Registry} {h : Nat},
    occCount reg h = 0 → inAnyRoom reg h = false := by
  intro reg
  induction reg with
  | nil => intro h _; rfl
  | cons p rest ih =>
      intro h hz
      simp only [occCount, List.map_cons, List.sum_cons, Nat.add_eq_zero] at hz
      obtain ⟨h1, h2⟩ := hz
      have hnil : p.2.filter (fun c => c.handle == h) = [] := List.length_eq_zero.mp h1
      have hmem : ∀ c ∈ p.2, ¬ (c.handle == h) = true := by
        intro c hc hch
        have hmem2 : c ∈ p.2.filter (fun c => c.handle == h) := List.mem_filter.mpr ⟨hc, hch⟩
        rw [hnil] at hmem2
        exact absurd hmem2 (List.not_mem_nil c)
      simp only [inAnyRoom, List.any_cons, Bool.or_eq_false_iff]
      constructor
      · simp only [List.any_eq_false]
        intro c hc
        exact hmem c hc
      · exact ih h2

/-- C2 counterexample: a connection registered in two rooms (`a` and `b`)
is removed from only the first room `cleanupConnection` reaches — the Go
body `return`s right after the first matching splice — so after cleanup
it still appears in the other room.  (Go map iteration order is
unspecified, but whichever room is visited first, the entry in the other
one survives, so the claim fails in every order.) -/
theorem cleanup_misses_second_room :
    cleanupConnection [("a", [⟨1, "u", 5⟩]), ("b", [⟨1, "u", 5⟩])] ⟨1, "u", 5⟩
      = [("a", []), ("b", [⟨1, "u", 5⟩])]
    ∧ inAnyRoom (cleanupConnection [("a", [⟨1, "u", 5⟩]), ("b", [⟨1, "u", 5⟩])] ⟨1, "u", 5⟩) 1
      = true :=
  ⟨rfl, rfl⟩

/-- C2 amended: `cleanupConnection` removes exactly one matching member
entry when one exists (the total occurrence count of the handle drops by
one, truncated at zero); hence a connection registered at most once — the
only situation the state machine produces for a connection that joined
one room — appears in no room's member list afterwards. -/
theorem cleanup_removes_first_match (reg : Registry) (conn : Connection) :
    occCount (cleanupConnection reg conn) conn.handle = occCount reg conn.handle - 1
    ∧ (occCount reg conn.handle ≤ 1 →
        inAnyRoom (cleanupConnection reg conn) conn.handle = false) := by
  refine ⟨occCount_cleanup reg conn, fun hle => inAnyRoom_eq_false ?_⟩
  have h := occCount_cleanup reg conn
  omega

/-- C2 amended witness: a room holding the connection once plus a
bystander; after cleanup the handle is gone. -/
theorem cleanup_removes_first_match_witness :
    occCount (cleanupConnection [("a", [⟨1, "u", 5⟩, ⟨2, "v", 0⟩])] ⟨1, "u", 5⟩) 1
      = occCount [("a", [⟨1, "u", 5⟩, ⟨2, "v", 0⟩])] 1 - 1
    ∧ (occCount [("a", [⟨1, "u", 5⟩, ⟨2, "v", 0⟩])] 1 ≤ 1 →
        inAnyRoom (cleanupConnection [("a", [⟨1, "u", 5⟩, ⟨2, "v", 0⟩])] ⟨1, "u", 5⟩) 1 = false) :=
  cleanup_removes_first_match [("a", [⟨1, "u", 5⟩, ⟨2, "v", 0⟩])] ⟨1, "u", 5⟩

theorem resolveJoinName_handle (conn : Connection) (p : Option Json) :
    (resolveJoinName conn p).handle = conn.handle := by
  unfold resolveJoinName
  split
  · cases unmarshalUserInfo p with
    | none => rfl
    | some ui => dsimp only; split <;> rfl
  · rfl

theorem sendsOf_joinNotify (l : List Connection) (conn1 : Connection) (roomID : String) :
    sendsOf (l.flatMap (fun e =>
      [notifyUserJoined e roomID conn1.userName, notifyUserJoined conn1 roomID e.userName])) =
    l.flatMap (fun e =>
      [(e.handle, userJoinedBytes roomID conn1.userName),
       (conn1.handle, userJoinedBytes roomID e.userName)]) := by
  induction l with
  | nil => rfl
  | cons x rest ih =>
      simp only [List.flatMap, List.map_cons, List.flatten_cons, List.cons_append,
        List.append_eq, List.nil_append, sendsOf, notifyUserJoined, respondJSON,
        userJoinedBytes] at ih ⊢
      rw [ih]

theorem join_existing_room_trace (conn : Connection) (msg : Message) (reg : Registry)
    (members : List Connection) (hroom : reg.lookup msg.roomID = some members) :
    (handleJoinEvent conn msg reg).2.2 =
      [Act.lockW] ++
        (members.flatMap (fun e =>
          [notifyUserJoined e msg.roomID (resolveJoinName conn msg.payload).userName,
           notifyUserJoined (resolveJoinName conn msg.payload) msg.roomID e.userName])) ++
      [Act.unlockW, respondJSON (resolveJoinName conn msg.payload) ⟨"joined", msg.roomID, none⟩] := by
  simp [handleJoinEvent, hroom]

/-- A `join` frame for user bob into room `r1`. -/
def joinBobFrame : Json := .obj [("event", .str "join"), ("roomId", .str "r1"),
  ("payload", .obj [("userName", .str "bob")])]

/-- C3 counterexample: bob (handle 2) joins room `r1` already holding
alice.  The byte sequences bob receives, in order, are the `user-joined`
presence event for alice FIRST and the `joined` confirmation SECOND (the
presence loop runs inside the lock, before `respondJSON` sends `joined`),
and the two messages really differ — refuting the claimed
joined-before-user-joined order. -/
theorem join_confirms_after_presence :
    recvSeq (handleMessage ⟨2, "", 0⟩ [("r1", [⟨1, "alice", 0⟩])] (.frame joinBobFrame)).2.2.1 2
      = [userJoinedBytes "r1" "alice", joinedConfirmationBytes "r1"]
    ∧ userJoinedBytes "r1" "alice" ≠ joinedConfirmationBytes "r1" := by
  refine ⟨rfl, by decide⟩

/-- C3 amended: joining a room that already has members sends, in order:
for each existing member (in member-list order) a `user-joined` naming the
joiner to that member and a `user-joined` naming that member to the
joiner, and only THEN the `joined` confirmation to the joiner.  Each
existing member entry thus receives exactly one `user-joined` naming the
new connection. -/
theorem join_order_general (conn : Connection) (reg : Registry) (j : Json)
    (msg : Message) (members : List Connection)
    (hdec : decodeMessage j = some msg) (hev : msg.event = "join")
    (hroom : reg.lookup msg.roomID = some members) :
    sendsOf (handleMessage conn reg (.frame j)).2.2.1 =
      members.flatMap (fun e =>
        [(e.handle, userJoinedBytes msg.roomID (resolveJoinName conn msg.payload).userName),
         (conn.handle, userJoinedBytes msg.roomID e.userName)])
      ++ [(conn.handle, joinedConfirmationBytes msg.roomID)] := by
  have hmain : (handleMessage conn reg (.frame j)).2.2.1 = (handleJoinEvent conn msg reg).2.2 := by
    simp [handleMessage, hdec, hev]
  rw [hmain, join_existing_room_trace conn msg reg members hroom]
  rw [sendsOf_append, sendsOf_append, sendsOf_joinNotify]
  simp only [sendsOf, respondJSON, resolveJoinName_handle, joinedConfirmationBytes]
  simp [resolveJoinName_handle]

/-- C3 amended witness: the concrete bob-joins-alice scenario. -/
theorem join_order_general_witness :
    sendsOf (handleMessage ⟨2, "", 0⟩ [("r1", [⟨1, "alice", 0⟩])] (.frame joinBobFrame)).2.2.1 =
      ([⟨1, "alice", 0⟩] : List Connection).flatMap (fun e =>
        [(e.handle, userJoinedBytes "r1"
            (resolveJoinName ⟨2, "", 0⟩ (some (.obj [("userName", .str "bob")]))).userName),
         ((⟨2, "", 0⟩ : Connection).handle, userJoinedBytes "r1" e.userName)])
      ++ [((⟨2, "", 0⟩ : Connection).handle, joinedConfirmationBytes "r1")] :=
  join_order_general ⟨2, "", 0⟩ [("r1", [⟨1, "alice", 0⟩])] joinBobFrame
    ⟨"join", "r1", some (.obj [("userName", .str "bob")])⟩ [⟨1, "alice", 0⟩] rfl rfl rfl

/-- A `join` frame with no `payload` field at all. -/
def joinNoPayloadFrame : Json := .obj [("event", .str "join"), ("roomId", .str "r2")]

/-- C4 counterexample: a connection with empty display name processes a
`join` whose payload is entirely absent.  The guard
`len(msg.Payload) > 0` is false, so the whole name-resolution block is
skipped: the name stays `""` and is NOT set to "Anonymous". -/
theorem join_absent_payload_keeps_empty_name :
    (handleMessage ⟨7, "", 0⟩ [] (.frame joinNoPayloadFrame)).1.userName = ""
    ∧ ¬ ((handleMessage ⟨7, "", 0⟩ [] (.frame joinNoPayloadFrame)).1.userName = "Anonymous") := by
  refine ⟨rfl, by decide⟩

/-- C4 amended: for a connection with empty display name, `join` sets the
name to the payload's non-empty `userName` when the payload is PRESENT
(falling back to "Anonymous" on unmarshal failure or empty/absent field),
but leaves the name EMPTY when the payload field is absent; and once the
name is non-empty, no message of any kind changes it. -/
theorem join_name_resolution (conn : Connection) (msg : Message) (reg : Registry) :
    (conn.userName = "" →
      (handleJoinEvent conn msg reg).1.userName =
        (match msg.payload with
         | none => ""
         | some p =>
             match unmarshalUserInfo (some p) with
             | some ui => if ui.userName ≠ "" then ui.userName else "Anonymous"
             | none => "Anonymous"))
    ∧ (∀ inb, conn.userName ≠ "" → (handleMessage conn reg inb).1.userName = conn.userName) := by
  constructor
  · intro hempty
    show (resolveJoinName conn msg.payload).userName = _
    cases hp : msg.payload with
    | none => simp [resolveJoinName, hempty, payloadBytes]
    | some p =>
        have hpos := render_length_pos p
        simp only [resolveJoinName, payloadBytes, hempty, true_and]
        rw [if_pos hpos]
        cases hu : unmarshalUserInfo (some p) with
        | none => simp
        | some ui =>
            by_cases hn : ui.userName = ""
            · simp [hn]
            · simp [hn]
  · intro inb hne
    cases inb with
    | malformed => rfl
    | frame j =>
        cases hdec : decodeMessage j with
        | none => simp [handleMessage, hdec]
        | some msg2 =>
            by_cases h1 : msg2.event = "join"
            · simp [handleMessage, hdec, h1, handleJoinEvent, resolveJoinName, hne]
            · by_cases h2 : msg2.event = "leave"
              · simp [handleMessage, hdec, h1, h2]
              · by_cases h3 : msg2.event = "offer" ∨ msg2.event = "answer" ∨ msg2.event = "ice-candidate"
                · simp [handleMessage, hdec, h1, h2, h3]
                · simp [handleMessage, hdec, h1, h2, h3]

/-- C4 amended witness: absent payload keeps the name empty; a named
connection keeps its name. -/
theorem join_name_resolution_witness :
    (handleJoinEvent ⟨7, "", 0⟩ ⟨"join", "r2", none⟩ []).1.userName = ""
    ∧ (handleMessage ⟨8, "carol", 0⟩ [] .malformed).1.userName = "carol" :=
  ⟨(join_name_resolution ⟨7, "", 0⟩ ⟨"join", "r2", none⟩ []).1 rfl,
   (join_name_resolution ⟨8, "carol", 0⟩ ⟨"join", "r2", none⟩ []).2 .malformed (by decide)⟩

theorem sendsOf_notifyUserLeft (leaving : Connection) (roomID userName : String)
    (reg : Registry) (members : List Connection) (hroom : reg.lookup roomID = some members) :
    sendsOf (notifyUserLeft leaving roomID userName reg) =
      (members.filter (fun c => c.handle ≠ leaving.handle)).map
        (fun c => (c.handle, userLeftBytes roomID userName)) := by
  simp only [notifyUserLeft, hroom]
  rw [sendsOf_append, sendsOf_append, sendsOf_respond]
  simp [sendsOf, userLeftBytes]

/-- A `leave` frame with no `payload` field at all. -/
def leaveNoPayloadFrame : Json := .obj [("event", .str "leave"), ("roomId", .str "r1")]

/-- C5 counterexample: bob leaves room `r1` (which also holds alice) with
an ABSENT payload.  `json.Unmarshal(nil, &userInfo)` errors, the whole
notify block is skipped, and alice receives no `user-left` at all —
refuting the claim that an absent payload falls back to the connection's
resolved name and still broadcasts. -/
theorem leave_absent_payload_sends_nothing :
    sendsOf (handleMessage ⟨2, "bob", 0⟩ [("r1", [⟨1, "alice", 0⟩, ⟨2, "bob", 0⟩])]
      (.frame leaveNoPayloadFrame)).2.2.1 = [] := rfl

/-- C5 amended: a `leave` whose payload is PRESENT and unmarshals into
`UserInfo` — including `{"userName": null}`, which Go accepts with a nil
error, ignoring the null and leaving the zero value — broadcasts
`user-left`, named by the payload's `userName` or the connection's
resolved name when that is empty, to every current member of the room
with a different channel handle, and then unregisters the connection
(`cleanupConnection`); when the payload is absent or the unmarshal
actually errors (a non-object, non-null payload, or a `userName` binding
that is neither string nor null) no notification is sent, though the
connection is still unregistered. -/
theorem leave_broadcast (conn : Connection) (reg : Registry) (j : Json)
    (msg : Message) (ui : UserInfo) (members : List Connection)
    (hdec : decodeMessage j = some msg) (hev : msg.event = "leave")
    (hui : unmarshalUserInfo msg.payload = some ui)
    (hroom : reg.lookup msg.roomID = some members) :
    sendsOf (handleMessage conn reg (.frame j)).2.2.1 =
      (members.filter (fun c => c.handle ≠ conn.handle)).map
        (fun c => (c.handle, userLeftBytes msg.roomID
          (if ui.userName = "" then conn.userName else ui.userName)))
    ∧ (handleMessage conn reg (.frame j)).2.1 = cleanupConnection reg conn := by
  have hj : ¬ (msg.event = "join") := by rw [hev]; decide
  have hmain : handleMessage conn reg (.frame j) =
      (conn, (handleLeaveEvent conn msg reg).1, (handleLeaveEvent conn msg reg).2, true) := by
    simp [handleMessage, hdec, hj, hev]
  rw [hmain]
  constructor
  · show sendsOf (handleLeaveEvent conn msg reg).2 = _
    simp only [handleLeaveEvent, hui]
    rw [sendsOf_append, sendsOf_notifyUserLeft conn msg.roomID _ reg members hroom]
    simp [sendsOf]
  · rfl

/-- C5 amended witness: bob leaves with payload `{"userName": null}` —
Go's `json.Unmarshal` returns a nil error for the null binding and leaves
`UserName` empty — so alice is notified under bob's resolved name, and
bob is removed from the room. -/
theorem leave_broadcast_witness :
    sendsOf (handleMessage ⟨2, "bob", 0⟩ [("r1", [⟨1, "alice", 0⟩, ⟨2, "bob", 0⟩])]
        (.frame (.obj [("event", .str "leave"), ("roomId", .str "r1"),
          ("payload", .obj [("userName", .null)])]))).2.2.1 =
      (([⟨1, "alice", 0⟩, ⟨2, "bob", 0⟩] : List Connection).filter
        (fun c => c.handle ≠ (⟨2, "bob", 0⟩ : Connection).handle)).map
        (fun c => (c.handle, userLeftBytes "r1" (if ("" : String) = "" then "bob" else "")))
    ∧ (handleMessage ⟨2, "bob", 0⟩ [("r1", [⟨1, "alice", 0⟩, ⟨2, "bob", 0⟩])]
        (.frame (.obj [("event", .str "leave"), ("roomId", .str "r1"),
          ("payload", .obj [("userName", .null)])]))).2.1 =
      cleanupConnection [("r1", [⟨1, "alice", 0⟩, ⟨2, "bob", 0⟩])] ⟨2, "bob", 0⟩ :=
  leave_broadcast ⟨2, "bob", 0⟩ [("r1", [⟨1, "alice", 0⟩, ⟨2, "bob", 0⟩])]
    (.obj [("event", .str "leave"), ("roomId", .str "r1"), ("payload", .obj [("userName", .null)])])
    ⟨"leave", "r1", some (.obj [("userName", .null)])⟩ ⟨""⟩
    [⟨1, "alice", 0⟩, ⟨2, "bob", 0⟩] rfl rfl rfl rfl

theorem removeFirstConn_eq_none : ∀ {l : List Connection} {h : Nat},
    (∀ c ∈ l, ¬ (c.handle = h)) → removeFirstConn l h = none := by
  intro l
  induction l with
  | nil => intro h _; rfl
  | cons c rest ih =>
      intro h hall
      simp only [removeFirstConn]
      rw [if_neg (hall c (List.mem_cons_self c rest))]
      rw [ih (fun x hx => hall x (List.mem_cons_of_mem c hx))]
      rfl

theorem cleanupConnection_id : ∀ {reg : Registry} {conn : Connection},
    inAnyRoom reg conn.handle = false → cleanupConnection reg conn = reg := by
  intro reg
  induction reg with
  | nil => intro conn _; rfl
  | cons p rest ih =>
      intro conn hna
      simp only [inAnyRoom, List.any_cons, Bool.or_eq_false_iff, List.any_eq_false] at hna
      obtain ⟨h1, h2⟩ := hna
      obtain ⟨rid, conns⟩ := p
      simp only [cleanupConnection]
      rw [removeFirstConn_eq_none (fun c hc => by simpa using h1 c hc)]
      have := @ih conn (by simpa [inAnyRoom, List.any_eq_false] using h2)
      rw [this]

/-- C6 counterexample: eve (handle 9) is registered in NO room, yet her
`leave` naming room `r1` makes alice — a member of `r1` — receive a
`user-left` event carrying eve's name: `notifyUserLeft` looks up the room
named in the message and never checks the sender's membership.  This
refutes "sends no user-left event to any connection, regardless of the
roomId named in the message". -/
theorem leave_unregistered_still_notifies :
    inAnyRoom [("r1", [⟨1, "alice", 0⟩])] 9 = false
    ∧ sendsOf (handleMessage ⟨9, "eve", 0⟩ [("r1", [⟨1, "alice", 0⟩])]
        (.frame (.obj [("event", .str "leave"), ("roomId", .str "r1"),
          ("payload", .obj [])]))).2.2.1
      = [(1, userLeftBytes "r1" "eve")] :=
  ⟨rfl, rfl⟩

/-- C6 amended: a `leave` from a connection registered in no room cannot
panic (the handler is a total function), leaves the registry unchanged
(`cleanupConnection` finds nothing to remove), and broadcasts nothing
when the message's roomId is absent from the registry; but when the
roomId names an existing room, that room's members still receive
`user-left` (see the counterexample). -/
theorem leave_unregistered (conn : Connection) (reg : Registry) (j : Json) (msg : Message)
    (hdec : decodeMessage j = some msg) (hev : msg.event = "leave")
    (hnr : inAnyRoom reg conn.handle = false) :
    (handleMessage conn reg (.frame j)).2.1 = reg
    ∧ (reg.lookup msg.roomID = none → sendsOf (handleMessage conn reg (.frame j)).2.2.1 = []) := by
  have hj : ¬ (msg.event = "join") := by rw [hev]; decide
  have hmain : handleMessage conn reg (.frame j) =
      (conn, (handleLeaveEvent conn msg reg).1, (handleLeaveEvent conn msg reg).2, true) := by
    simp [handleMessage, hdec, hj, hev]
  rw [hmain]
  constructor
  · show (handleLeaveEvent conn msg reg).1 = reg
    simp only [handleLeaveEvent]
    exact cleanupConnection_id hnr
  · intro hnone
    show sendsOf (handleLeaveEvent conn msg reg).2 = []
    simp only [handleLeaveEvent]
    cases hui : unmarshalUserInfo msg.payload with
    | none => simp [sendsOf]
    | some ui =>
        rw [sendsOf_append]
        simp [notifyUserLeft, hnone, sendsOf]

/-- C6 amended witness: eve, registered nowhere, leaves the absent room
`nope`: registry untouched, nothing sent. -/
theorem leave_unregistered_witness :
    (handleMessage ⟨9, "eve", 0⟩ [("r1", [⟨1, "alice", 0⟩])]
        (.frame (.obj [("event", .str "leave"), ("roomId", .str "nope"),
          ("payload", .obj [])]))).2.1 = [("r1", [⟨1, "alice", 0⟩])]
    ∧ ((([("r1", [⟨1, "alice", 0⟩])] : Registry).lookup "nope" = none) →
        sendsOf (handleMessage ⟨9, "eve", 0⟩ [("r1", [⟨1, "alice", 0⟩])]
          (.frame (.obj [("event", .str "leave"), ("roomId", .str "nope"),
            ("payload", .obj [])]))).2.2.1 = []) :=
  leave_unregistered ⟨9, "eve", 0⟩ [("r1", [⟨1, "alice", 0⟩])]
    (.obj [("event", .str "leave"), ("roomId", .str "nope"), ("payload", .obj [])])
    ⟨"leave", "nope", some (.obj [])⟩ rfl rfl rfl

theorem wlockSendsAux_map_send_zero (l : List Connection) (m : String) (rest : List Act) :
    wlockSendsAux 0 ((l.map fun c => Act.send c.handle m) ++ rest) = wlockSendsAux 0 rest := by
  induction l with
  | nil => rfl
  | cons x r ih => simp [wlockSendsAux, ih]

theorem wlockSendsAux_map_respond_zero (l : List Connection) (msg : Message) (rest : List Act) :
    wlockSendsAux 0 ((l.map fun c => respondJSON c msg) ++ rest) = wlockSendsAux 0 rest := by
  induction l with
  | nil => rfl
  | cons x r ih =>
      simp only [respondJSON] at ih ⊢
      simp [wlockSendsAux, ih]

theorem wlockSendsAux_notify_one (l : List Connection) (conn1 : Connection) (rid : String)
    (rest : List Act) :
    wlockSendsAux 1 ((l.flatMap fun e =>
        [notifyUserJoined e rid conn1.userName, notifyUserJoined conn1 rid e.userName]) ++ rest) =
      (l.flatMap fun e =>
        [(e.handle, userJoinedBytes rid conn1.userName),
         (conn1.handle, userJoinedBytes rid e.userName)]) ++ wlockSendsAux 1 rest := by
  induction l with
  | nil => rfl
  | cons x r ih =>
      simp only [List.flatMap, List.map_cons, List.flatten_cons, List.cons_append,
        List.append_eq, List.nil_append, wlockSendsAux, notifyUserJoined, respondJSON,
        userJoinedBytes] at ih ⊢
      simp only [Nat.zero_lt_one, if_true, List.cons_append, List.nil_append]
      rw [ih]

theorem lookup_append_absent (reg : Registry) (rid : String) (l : List Connection)
    (hnone : reg.lookup rid = none) : (reg ++ [(rid, l)]).lookup rid = some l := by
  induction reg with
  | nil => simp [Registry.lookup, List.find?]
  | cons p rest ih =>
      simp only [Registry.lookup, List.cons_append, List.find?] at hnone ⊢
      cases hp : (p.1 == rid) with
      | true => simp [hp] at hnone
      | false =>
          simp only [hp] at hnone ⊢
          exact ih hnone

theorem join_new_room_trace (conn : Connection) (msg : Message) (reg : Registry)
    (hnone : reg.lookup msg.roomID = none) :
    (handleJoinEvent conn msg reg).2.2 =
      [Act.lockW] ++
        (if (resolveJoinName conn msg.payload).userName ≠ ""
            ∧ (resolveJoinName conn msg.payload).userName ≠ "Anonymous"
            ∧ 0 < (resolveJoinName conn msg.payload).userID
         then [Act.dbAddActiveRoom msg.roomID (resolveJoinName conn msg.payload).userName
            (resolveJoinName conn msg.payload).userID]
         else []) ++
      [Act.unlockW, respondJSON (resolveJoinName conn msg.payload) ⟨"joined", msg.roomID, none⟩] := by
  have hl2 := lookup_append_absent reg msg.roomID [] hnone
  simp [handleJoinEvent, hnone, hl2]

theorem wlock_join_trace (l : List Connection) (conn1 : Connection) (rid : String) :
    sendsUnderWriteLock ([Act.lockW] ++
        (l.flatMap fun e => [notifyUserJoined e rid conn1.userName,
                             notifyUserJoined conn1 rid e.userName]) ++
        [Act.unlockW, respondJSON conn1 ⟨"joined", rid, none⟩]) =
      l.flatMap fun e =>
        [(e.handle, userJoinedBytes rid conn1.userName),
         (conn1.handle, userJoinedBytes rid e.userName)] := by
  simp only [sendsUnderWriteLock, List.cons_append, List.append_eq, List.nil_append,
    List.append_assoc, wlockSendsAux, Nat.zero_add]
  rw [wlockSendsAux_notify_one]
  simp [wlockSendsAux, respondJSON]

theorem wlock_leave_trace (l : List Connection) (msg2 : Message) :
    sendsUnderWriteLock (([Act.lockR] ++ l.map (fun c => respondJSON c msg2) ++ [Act.unlockR])
      ++ [Act.lockW, Act.unlockW]) = [] := by
  simp only [sendsUnderWriteLock, List.cons_append, List.append_eq, List.nil_append,
    List.append_assoc, wlockSendsAux]
  rw [wlockSendsAux_map_respond_zero]
  rfl

theorem wlock_relay_trace (l : List Connection) (m : String) :
    sendsUnderWriteLock ([Act.lockR] ++ l.map (fun c => Act.send c.handle m)
      ++ [Act.unlockR]) = [] := by
  simp only [sendsUnderWriteLock, List.cons_append, List.append_eq, List.nil_append,
    List.append_assoc, wlockSendsAux]
  rw [wlockSendsAux_map_send_zero]
  rfl

/-- C9 counterexample: when bob joins room `r1` already holding alice,
the two `user-joined` notifications (to alice and to bob) are network
writes performed BETWEEN `mutex.Lock()` and `mutex.Unlock()` — the
presence loop of the join handler runs inside the exclusive lock — so
the no-write-under-the-write-lock discipline is violated. -/
theorem join_sends_under_write_lock :
    sendsUnderWriteLock (handleMessage ⟨2, "", 0⟩ [("r1", [⟨1, "alice", 0⟩])]
        (.frame joinBobFrame)).2.2.1
      = [(1, userJoinedBytes "r1" "bob"), (2, userJoinedBytes "r1" "alice")]
    ∧ [((1 : Nat), userJoinedBytes "r1" "bob"), (2, userJoinedBytes "r1" "alice")] ≠ [] := by
  refine ⟨rfl, by decide⟩

/-- C9 amended: the only network writes performed while the registry's
exclusive (write) lock is held are the join handler's `user-joined`
notifications to the existing members and to the joiner; every other
step — the `joined` confirmation (sent after Unlock), leave broadcasts
and relays (under the shared read lock only), malformed/unknown input,
and the read-error cleanup — writes nothing under the write lock. -/
theorem write_lock_sends (conn : Connection) (reg : Registry) :
    (∀ j msg, decodeMessage j = some msg → msg.event = "join" →
      sendsUnderWriteLock (handleMessage conn reg (.frame j)).2.2.1 =
        ((reg.lookup msg.roomID).getD []).flatMap (fun e =>
          [(e.handle, userJoinedBytes msg.roomID (resolveJoinName conn msg.payload).userName),
           (conn.handle, userJoinedBytes msg.roomID e.userName)]))
    ∧ (∀ inb, (∀ j msg, inb = .frame j → decodeMessage j = some msg → msg.event ≠ "join") →
        sendsUnderWriteLock (handleMessage conn reg inb).2.2.1 = [])
    ∧ sendsUnderWriteLock (handleReadError conn reg).2.1 = [] := by
  refine ⟨?_, ?_, rfl⟩
  · intro j msg hdec hev
    have hmain : (handleMessage conn reg (.frame j)).2.2.1 = (handleJoinEvent conn msg reg).2.2 := by
      simp [handleMessage, hdec, hev]
    rw [hmain]
    cases hlook : reg.lookup msg.roomID with
    | none =>
        rw [join_new_room_trace conn msg reg hlook]
        simp only [Option.getD_none, List.flatMap_nil]
        split
        · rfl
        · rfl
    | some ms =>
        rw [join_existing_room_trace conn msg reg ms hlook]
        simp only [Option.getD_some]
        rw [wlock_join_trace ms (resolveJoinName conn msg.payload) msg.roomID]
        have hh := resolveJoinName_handle conn msg.payload
        rw [hh]
  · intro inb hnj
    cases inb with
    | malformed => rfl
    | frame j =>
        cases hdec : decodeMessage j with
        | none => simp [handleMessage, hdec, sendsUnderWriteLock, wlockSendsAux]
        | some msg =>
            have h1 : ¬ (msg.event = "join") := hnj j msg rfl hdec
            by_cases h2 : msg.event = "leave"
            · have hmain : (handleMessage conn reg (.frame j)).2.2.1 =
                  (handleLeaveEvent conn msg reg).2 := by
                simp [handleMessage, hdec, h1, h2]
              rw [hmain]
              simp only [handleLeaveEvent]
              cases hui : unmarshalUserInfo msg.payload with
              | none => rfl
              | some ui =>
                  simp only [notifyUserLeft]
                  cases hlook : reg.lookup msg.roomID with
                  | none => rfl
                  | some ms => exact wlock_leave_trace _ _
            · by_cases h3 : msg.event = "offer" ∨ msg.event = "answer" ∨ msg.event = "ice-candidate"
              · have hmain : (handleMessage conn reg (.frame j)).2.2.1 =
                    relayMessageToRoom conn msg.roomID j.render reg := by
                  simp [handleMessage, hdec, h1, h2, h3]
                rw [hmain]
                simp only [relayMessageToRoom]
                cases hlook : reg.lookup msg.roomID with
                | none => rfl
                | some ms => exact wlock_relay_trace _ _
              · simp [handleMessage, hdec, h1, h2, h3, sendsUnderWriteLock, wlockSendsAux]

/-- C9 amended witness: the bob-joins-alice scenario instantiates the
join clause, and a malformed frame instantiates the no-write clause. -/
theorem write_lock_sends_witness :
    sendsUnderWriteLock (handleMessage ⟨2, "", 0⟩ [("r1", [⟨1, "alice", 0⟩])]
        (.frame joinBobFrame)).2.2.1 =
      ((([("r1", [⟨1, "alice", 0⟩])] : Registry).lookup "r1").getD []).flatMap (fun e =>
        [(e.handle, userJoinedBytes "r1"
            (resolveJoinName ⟨2, "", 0⟩ (some (.obj [("userName", .str "bob")]))).userName),
         ((⟨2, "", 0⟩ : Connection).handle, userJoinedBytes "r1" e.userName)])
    ∧ sendsUnderWriteLock (handleMessage ⟨2, "", 0⟩ [("r1", [⟨1, "alice", 0⟩])]
        .malformed).2.2.1 = [] :=
  ⟨(write_lock_sends ⟨2, "", 0⟩ [("r1", [⟨1, "alice", 0⟩])]).1 joinBobFrame
     ⟨"join", "r1", some (.obj [("userName", .str "bob")])⟩ rfl rfl,
   (write_lock_sends ⟨2, "", 0⟩ [("r1", [⟨1, "alice", 0⟩])]).2.1 .malformed
     (by intro j msg heq; cases heq)⟩

theorem roomKeys_cleanup (reg : Registry) (conn : Connection) :
    roomKeys (cleanupConnection reg conn) = roomKeys reg := by
  induction reg with
  | nil => rfl
  | cons p rest ih =>
      obtain ⟨rid, conns⟩ := p
      simp only [cleanupConnection]
      cases removeFirstConn conns conn.handle with
      | some conns2 => rfl
      | none => simp only [roomKeys, List.map_cons] at ih ⊢; rw [ih]

theorem roomKeys_setRoom (reg : Registry) (rid : String) (conns : List Connection) :
    roomKeys (Registry.setRoom reg rid conns) = roomKeys reg := by
  induction reg with
  | nil => rfl
  | cons p rest ih =>
      simp only [Registry.setRoom, List.map_cons, roomKeys] at ih ⊢
      rw [ih]
      by_cases hp : p.1 == rid
      · simp only [hp, if_true]
        have : p.1 = rid := by simpa using hp
        simp [this]
      · simp [hp]

theorem lookup_setRoom : ∀ (reg : Registry) (rid : String)
    (conns ms : List Connection), reg.lookup rid = some ms →
    (Registry.setRoom reg rid conns).lookup rid = some conns := by
  intro reg
  induction reg with
  | nil => intro rid conns ms h; simp [Registry.lookup, List.find?] at h
  | cons p rest ih =>
      intro rid conns ms h
      simp only [Registry.lookup, Registry.setRoom, List.map_cons, List.find?] at h ⊢
      by_cases hp : p.1 == rid
      · simp [hp]
      · simp only [hp, Bool.false_eq_true, if_false] at h ⊢
        exact ih rid conns ms h

theorem roomKeys_handleJoin_existing (conn : Connection) (msg : Message) (reg : Registry)
    (ms : List Connection) (hlook : reg.lookup msg.roomID = some ms) :
    roomKeys (handleJoinEvent conn msg reg).2.1 = roomKeys reg := by
  simp only [handleJoinEvent, hlook, Option.isNone_some]
  simp only [Bool.false_eq_true, if_false]
  exact roomKeys_setRoom reg msg.roomID _

theorem roomKeys_handleJoin_new (conn : Connection) (msg : Message) (reg : Registry)
    (hlook : reg.lookup msg.roomID = none) :
    roomKeys (handleJoinEvent conn msg reg).2.1 = roomKeys reg ++ [msg.roomID] := by
  simp only [handleJoinEvent, hlook, Option.isNone_none, if_true]
  rw [roomKeys_setRoom]
  simp [roomKeys]

/-- C7.  Room-entry lifecycle: (1) `cleanupConnection` never adds or
removes a room key — an emptied room stays registered; (2) message
handling preserves the key set except that a `join` naming an absent room
appends exactly that key (join is the only creator); (3) a `join` on an
existing room finds the existing entry and appends the joiner to its
member list; (4) `handleDeleteRoom` changes the registry only on the
fully authorized path — request parsed, room found in the durable store,
requester is its creator, durable delete succeeded — and then by erasing
exactly the requested key. -/
theorem room_lifecycle (conn : Connection) (reg : Registry) (inb : Inbound)
    (req : Option String) (dbFetchErr : Bool) (dbRoom : Option DbRoom)
    (dbDeleteErr : Bool) (uid : Int) :
    roomKeys (cleanupConnection reg conn) = roomKeys reg
    ∧ (roomKeys (handleMessage conn reg inb).2.1 = roomKeys reg
       ∨ ∃ j msg, inb = .frame j ∧ decodeMessage j = some msg ∧ msg.event = "join"
           ∧ reg.lookup msg.roomID = none
           ∧ roomKeys (handleMessage conn reg inb).2.1 = roomKeys reg ++ [msg.roomID])
    ∧ (∀ msg ms, reg.lookup (msg : Message).roomID = some ms →
        (handleJoinEvent conn msg reg).2.1.lookup msg.roomID
          = some (ms ++ [resolveJoinName conn msg.payload]))
    ∧ ((handleDeleteRoom reg req dbFetchErr dbRoom dbDeleteErr uid).1 ≠ reg →
        ∃ rid room, req = some rid ∧ rid ≠ "" ∧ dbFetchErr = false ∧ dbRoom = some room
          ∧ room.createdBy = uid ∧ dbDeleteErr = false
          ∧ (handleDeleteRoom reg req dbFetchErr dbRoom dbDeleteErr uid).1
              = reg.eraseRoom rid) := by
  refine ⟨roomKeys_cleanup reg conn, ?_, ?_, ?_⟩
  · cases inb with
    | malformed => exact Or.inl rfl
    | frame j =>
        cases hdec : decodeMessage j with
        | none => left; simp [handleMessage, hdec]
        | some msg =>
            by_cases h1 : msg.event = "join"
            · have hreg : (handleMessage conn reg (.frame j)).2.1
                  = (handleJoinEvent conn msg reg).2.1 := by
                simp [handleMessage, hdec, h1]
              cases hlook : reg.lookup msg.roomID with
              | some ms =>
                  left; rw [hreg]; exact roomKeys_handleJoin_existing conn msg reg ms hlook
              | none =>
                  right
                  exact ⟨j, msg, rfl, hdec, h1, hlook,
                    by rw [hreg]; exact roomKeys_handleJoin_new conn msg reg hlook⟩
            · by_cases h2 : msg.event = "leave"
              · left
                have hreg : (handleMessage conn reg (.frame j)).2.1
                    = cleanupConnection reg conn := by
                  simp [handleMessage, hdec, h1, h2, handleLeaveEvent]
                rw [hreg]; exact roomKeys_cleanup reg conn
              · by_cases h3 : msg.event = "offer" ∨ msg.event = "answer"
                    ∨ msg.event = "ice-candidate"
                · left; simp [handleMessage, hdec, h1, h2, h3]
                · left; simp [handleMessage, hdec, h1, h2, h3]
  · intro msg ms hlook
    simp only [handleJoinEvent, hlook, Option.isNone_some]
    simp only [Bool.false_eq_true, if_false]
    have : (reg.lookup msg.roomID).getD [] = ms := by rw [hlook]; rfl
    rw [this]
    exact lookup_setRoom reg msg.roomID _ ms hlook
  · intro hne
    cases req with
    | none => exact absurd rfl hne
    | some rid =>
        by_cases hr : rid = ""
        · simp [handleDeleteRoom, hr] at hne
        · cases hf : dbFetchErr with
          | true => simp [handleDeleteRoom, hr, hf] at hne
          | false =>
              cases hdb : dbRoom with
              | none => simp [handleDeleteRoom, hr, hf, hdb] at hne
              | some room =>
                  by_cases hcb : room.createdBy = uid
                  · cases hd : dbDeleteErr with
                    | true => simp [handleDeleteRoom, hr, hf, hdb, hcb, hd] at hne
                    | false =>
                        refine ⟨rid, room, rfl, hr, rfl, rfl, hcb, rfl, ?_⟩
                        simp [handleDeleteRoom, hr, hf, hdb, hcb, hd]
                  · simp [handleDeleteRoom, hr, hf, hdb, hcb] at hne

/-- C7 witness: carl's disconnect leaves `r2` registered (empty); dana's
later join finds the entry and becomes its sole member; deletion by the
creator (id 7) erases the key. -/
theorem room_lifecycle_witness :
    roomKeys (cleanupConnection [("r2", [⟨3, "carl", 0⟩])] ⟨3, "carl", 0⟩)
      = roomKeys [("r2", [⟨3, "carl", 0⟩])]
    ∧ (handleJoinEvent ⟨4, "dana", 0⟩ ⟨"join", "r2", none⟩ [("r2", [])]).2.1.lookup "r2"
      = some ([] ++ [resolveJoinName ⟨4, "dana", 0⟩ none])
    ∧ (∃ rid room, (some "r2" : Option String) = some rid ∧ rid ≠ ""
        ∧ (false : Bool) = false ∧ (some ⟨"r2", 7⟩ : Option DbRoom) = some room
        ∧ room.createdBy = 7 ∧ (false : Bool) = false
        ∧ (handleDeleteRoom [("r2", [])] (some "r2") false (some ⟨"r2", 7⟩) false 7).1
            = Registry.eraseRoom [("r2", [])] rid) :=
  ⟨(room_lifecycle ⟨3, "carl", 0⟩ [("r2", [⟨3, "carl", 0⟩])] .malformed none false none false 0).1,
   (room_lifecycle ⟨4, "dana", 0⟩ [("r2", [])] .malformed none false none false 0).2.2.1
     ⟨"join", "r2", none⟩ [] rfl,
   (room_lifecycle ⟨4, "dana", 0⟩ [("r2", [])] .malformed (some "r2") false
     (some ⟨"r2", 7⟩) false 7).2.2.2 (by decide)⟩
